import Mathlib

/-
  Verification of the DAL keystore context/slot registry
  (`dal_keystore_*` functions of the keystore driver).

  The registry is a global linked list of contexts (`dal_contexts`); each
  context owns a linked list of slots.  `list_add` inserts at the head of a
  kernel list, so the head of each Lean list below is the most recently
  inserted element.  Pointer identity of a context is modelled by a numeric
  handle `cid` drawn from a monotone allocation counter, and `kzalloc` /
  `kzfree` are modelled by zero-initialised fields and by returning the
  zeroised memory contents at the moment of release.  The compile-time
  constants `DAL_KEYSTORE_CLIENTS_MAX`, `DAL_KEYSTORE_SLOTS_MAX` and
  `KEYSTORE_CLIENT_TICKET_SIZE` are compile-time constants whose defining
  header is not part of the sources, so every definition is parameterised
  by them
  (`maxClients`, `maxSlots`, `tsize`).
-/

namespace DalKeystore

/-- Byte values, as stored in the ticket and wrapped-key buffers. -/
abbrev Byte := Nat

/-- errno value EFAULT (returned negated, as in the kernel). -/
def EFAULT : Int := 14

/-- errno value EINVAL (returned negated, as in the kernel). -/
def EINVAL : Int := 22

/-- struct dal_keystore_slot: a slot id, the wrapped key bytes and the
key size field.  A freshly `kzalloc`ed slot has an empty, zeroed key. -/
structure Slot where
  slot_id : Nat
  wrapped_key : List Byte
  wrapped_key_size : Nat
deriving Repr, DecidableEq

/-- struct dal_keystore_ctx: a context with its client ticket and its list
of slots.  `cid` models the pointer identity of the `kzalloc`ed structure;
`slots` lists the owned slots, head = most recently added (`list_add`
inserts at the head). -/
structure Ctx where
  cid : Nat
  client_ticket : List Byte
  slots : List Slot
deriving Repr, DecidableEq

/-- The global registry: the `dal_contexts` list (head = most recently
added context) together with the allocation counter that models pointer
identity. -/
structure KS where
  contexts : List Ctx
  nextId : Nat
deriving Repr, DecidableEq

/-- The registry at startup: `LIST_HEAD_INIT(dal_contexts)`, empty. -/
def initKS : KS := ⟨[], 0⟩

/-- memcmp(a, b, n) == 0: the first `n` bytes of the two buffers agree. -/
def memcmpEqN (n : Nat) (a b : List Byte) : Bool :=
  a.take n == b.take n

/-- kzfree: the memory of a slot is zero-filled before release; the value
returned is the contents of the wrapped-key buffer at the moment the
memory is handed back to the allocator. -/
def kzfreeSlot (s : Slot) : List Byte :=
  List.replicate s.wrapped_key.length 0

/-- dal_keystore_find_slot_id: NULL/`none` for a null context or an id
outside `[0, maxSlots)`, otherwise the first slot of the list with that
id (read-only). -/
def dal_keystore_find_slot_id (maxSlots : Nat) (ctx : Option Ctx)
    (slot_id : Int) : Option Slot :=
  match ctx with
  | none => none
  | some c =>
    if slot_id < 0 ∨ (maxSlots : Int) ≤ slot_id then none
    else c.slots.find? (fun s => (s.slot_id : Int) == slot_id)

/-- The id scan of dal_keystore_allocate_slot: starting from `id` with
`fuel` ids left to try, return the first id for which
`dal_keystore_find_slot_id` finds nothing, or `id + fuel` when all are in
use. -/
def findLowestFreeIdAux (maxSlots : Nat) (c : Ctx) : Nat → Nat → Nat
  | 0, id => id
  | fuel + 1, id =>
    if (dal_keystore_find_slot_id maxSlots (some c) (id : Int)).isSome then
      findLowestFreeIdAux maxSlots c fuel (id + 1)
    else id

/-- The `for (id = 0; id < DAL_KEYSTORE_SLOTS_MAX; id++)` scan of
dal_keystore_allocate_slot: the lowest unused slot id, or `maxSlots` when
every id is in use. -/
def findLowestFreeId (maxSlots : Nat) (c : Ctx) : Nat :=
  findLowestFreeIdAux maxSlots c maxSlots 0

/-- dal_keystore_allocate_slot: scan for the lowest unused id; if one
exists below `maxSlots`, insert a zero-initialised slot with that id at
the head of the context's slot list and return it; otherwise return
NULL/`none` and leave the context unchanged.  The pair is (returned slot,
context after the call). -/
def dal_keystore_allocate_slot (maxSlots : Nat) (ctx : Option Ctx) :
    Option Slot × Option Ctx :=
  match ctx with
  | none => (none, none)
  | some c =>
    let id := findLowestFreeId maxSlots c
    if id < maxSlots then
      let item : Slot := ⟨id, [], 0⟩
      (some item, some { c with slots := item :: c.slots })
    else
      (none, some c)

/-- The `list_for_each_safe` deletion pattern shared by the three freeing
functions: remove the first element satisfying `p`, returning it and the
remaining list; `none` when no element matches. -/
def removeFirst (p : α → Bool) : List α → Option (α × List α)
  | [] => none
  | x :: rest =>
    if p x then some (x, rest)
    else
      match removeFirst p rest with
      | some (y, rest2) => some (y, x :: rest2)
      | none => none

/-- The `list_for_each_safe` scan of dal_keystore_free_slot_id: remove the
first slot whose id matches, returning it and the remaining list. -/
def removeFirstSlot (slot_id : Int) (l : List Slot) :
    Option (Slot × List Slot) :=
  removeFirst (fun s => (s.slot_id : Int) == slot_id) l

/-- dal_keystore_free_slot_id: -EFAULT for a null context, -EINVAL for an
id outside `[0, maxSlots)`, otherwise delete and `kzfree` the first slot
with that id (0 on success) or -EINVAL when none matches.  The triple is
(return value, context after the call, released memory contents). -/
def dal_keystore_free_slot_id (maxSlots : Nat) (ctx : Option Ctx)
    (slot_id : Int) : Int × Option Ctx × List (List Byte) :=
  match ctx with
  | none => (-EFAULT, none, [])
  | some c =>
    if slot_id < 0 ∨ (maxSlots : Int) ≤ slot_id then (-EINVAL, some c, [])
    else
      match removeFirstSlot slot_id c.slots with
      | some (s, rest) => (0, some { c with slots := rest }, [kzfreeSlot s])
      | none => (-EINVAL, some c, [])

/-- deinit_context_struct: `kzfree` every slot of the context; the result
is the released memory contents of all its wrapped-key buffers. -/
def deinit_context_struct (c : Ctx) : List (List Byte) :=
  c.slots.map kzfreeSlot

/-- dal_keystore_allocate_context: count the registered clients; below
`maxClients`, `kzalloc` a fresh context (zeroed ticket of `tsize` bytes,
empty slot list, fresh identity) and `list_add` it at the head of the
registry; otherwise return NULL/`none` and leave the registry unchanged. -/
def dal_keystore_allocate_context (maxClients tsize : Nat) (st : KS) :
    Option Ctx × KS :=
  if st.contexts.length < maxClients then
    let item : Ctx := ⟨st.nextId, List.replicate tsize 0, []⟩
    (some item, ⟨item :: st.contexts, st.nextId + 1⟩)
  else
    (none, st)

/-- The `list_for_each_safe` scan of the two context-freeing functions:
remove the first context satisfying `p`, returning it and the remaining
registry list. -/
def removeFirstCtx (p : Ctx → Bool) (l : List Ctx) :
    Option (Ctx × List Ctx) :=
  removeFirst p l

/-- dal_keystore_free_context_ctx: -EFAULT for a null pointer; otherwise
deinit, delete and `kzfree` the first registry entry with the same
identity (0 on success), or -EINVAL when none matches.  The triple is
(return value, registry after the call, released slot memory contents). -/
def dal_keystore_free_context_ctx (ctx : Option Nat) (st : KS) :
    Int × KS × List (List Byte) :=
  match ctx with
  | none => (-EFAULT, st, [])
  | some cid =>
    match removeFirstCtx (fun c => c.cid == cid) st.contexts with
    | some (c, rest) => (0, ⟨rest, st.nextId⟩, deinit_context_struct c)
    | none => (-EINVAL, st, [])

/-- dal_keystore_free_context_ticket: -EFAULT for a null ticket; otherwise
deinit, delete and `kzfree` the first registry entry whose ticket matches
byte-for-byte over `tsize` bytes (0 on success), or -EINVAL when none
matches. -/
def dal_keystore_free_context_ticket (tsize : Nat)
    (client_ticket : Option (List Byte)) (st : KS) :
    Int × KS × List (List Byte) :=
  match client_ticket with
  | none => (-EFAULT, st, [])
  | some t =>
    match removeFirstCtx (fun c => memcmpEqN tsize t c.client_ticket)
        st.contexts with
    | some (c, rest) => (0, ⟨rest, st.nextId⟩, deinit_context_struct c)
    | none => (-EINVAL, st, [])

/-- dal_keystore_find_context_ticket: NULL/`none` for a null ticket,
otherwise the first registry entry whose ticket matches byte-for-byte
over `tsize` bytes, or NULL/`none` when none matches (read-only). -/
def dal_keystore_find_context_ticket (tsize : Nat)
    (client_ticket : Option (List Byte)) (st : KS) : Option Ctx :=
  match client_ticket with
  | none => none
  | some t => st.contexts.find? (fun c => memcmpEqN tsize t c.client_ticket)

/-- dal_keystore_free_contexts: deinit, delete and `kzfree` every context
of the registry, leaving it empty.  The pair is (registry after the call,
released slot memory contents). -/
def dal_keystore_free_contexts (st : KS) : KS × List (List Byte) :=
  (⟨[], st.nextId⟩, (st.contexts.map deinit_context_struct).flatten)

/-! ### Operation alphabet and reachable registry states

The callers of this module (the ioctl layer) may interleave any of the
exported operations, plus the two caller-side mutations the design
documents: writing the client ticket after `allocate_context` and writing
the wrapped-key bytes of an allocated slot.  A state is reachable when it
arises from the empty startup registry by any such sequence. -/

/-- One call a caller can make against the registry.  Slot operations
address a context through its pointer (`Option Nat` identity handle);
`setTicket`/`setKey` are the caller-side field writes the design allows
on a live context. -/
inductive Op where
  | allocCtx
  | freeCtxPtr (p : Option Nat)
  | freeCtxTicket (t : Option (List Byte))
  | freeAll
  | allocSlot (p : Option Nat)
  | freeSlot (p : Option Nat) (slot_id : Int)
  | setTicket (cid : Nat) (t : List Byte)
  | setKey (cid : Nat) (sid : Nat) (key : List Byte)

/-- The three compile-time capacity constants of the module. -/
structure Params where
  maxClients : Nat
  maxSlots : Nat
  tsize : Nat

/-- Apply an in-place update to the registry entry with the given
identity (a live pointer dereference). -/
def updateCtx (cid : Nat) (f : Ctx → Ctx) (l : List Ctx) : List Ctx :=
  l.map (fun c => if c.cid == cid then f c else c)

/-- The context after a dal_keystore_allocate_slot call on it. -/
def allocSlotCtx (maxSlots : Nat) (c : Ctx) : Ctx :=
  ((dal_keystore_allocate_slot maxSlots (some c)).2).getD c

/-- The context after a dal_keystore_free_slot_id call on it. -/
def freeSlotCtx (maxSlots : Nat) (slot_id : Int) (c : Ctx) : Ctx :=
  ((dal_keystore_free_slot_id maxSlots (some c) slot_id).2.1).getD c

/-- The caller-side write of the client ticket field. -/
def setTicketCtx (t : List Byte) (c : Ctx) : Ctx :=
  { c with client_ticket := t }

/-- The caller-side write of a slot's wrapped-key bytes. -/
def setKeyCtx (sid : Nat) (key : List Byte) (c : Ctx) : Ctx :=
  { c with slots := c.slots.map (fun s =>
      if s.slot_id == sid then
        { s with wrapped_key := key, wrapped_key_size := key.length }
      else s) }

/-- The registry state after one operation (outputs discarded). -/
def step (P : Params) (op : Op) (st : KS) : KS :=
  match op with
  | .allocCtx => (dal_keystore_allocate_context P.maxClients P.tsize st).2
  | .freeCtxPtr p => (dal_keystore_free_context_ctx p st).2.1
  | .freeCtxTicket t => (dal_keystore_free_context_ticket P.tsize t st).2.1
  | .freeAll => (dal_keystore_free_contexts st).1
  | .allocSlot p =>
    match p with
    | none => st
    | some cid => ⟨updateCtx cid (allocSlotCtx P.maxSlots) st.contexts, st.nextId⟩
  | .freeSlot p sid =>
    match p with
    | none => st
    | some cid =>
      ⟨updateCtx cid (freeSlotCtx P.maxSlots sid) st.contexts, st.nextId⟩
  | .setTicket cid t => ⟨updateCtx cid (setTicketCtx t) st.contexts, st.nextId⟩
  | .setKey cid sid key =>
    ⟨updateCtx cid (setKeyCtx sid key) st.contexts, st.nextId⟩

/-- Registry states reachable from the startup state by caller
operations. -/
inductive Reachable (P : Params) : KS → Prop where
  | init : Reachable P initKS
  | next {st : KS} (op : Op) : Reachable P st → Reachable P (step P op st)

/-- The per-context well-formedness the module maintains: slot ids are
pairwise distinct and all below `maxSlots`. -/
def CtxGood (maxSlots : Nat) (c : Ctx) : Prop :=
  (c.slots.map Slot.slot_id).Nodup ∧ ∀ s ∈ c.slots, s.slot_id < maxSlots

/-- The registry-wide well-formedness the module maintains: the capacity
ceiling on contexts, per-context slot well-formedness, strictly
decreasing identities along the list (head = newest), and all identities
below the allocation counter. -/
def KSGood (P : Params) (st : KS) : Prop :=
  st.contexts.length ≤ P.maxClients ∧
  (∀ c ∈ st.contexts, CtxGood P.maxSlots c) ∧
  (st.contexts.map Ctx.cid).Pairwise (fun a b => b < a) ∧
  ∀ c ∈ st.contexts, c.cid < st.nextId

/-! ### Properties of the deletion scan -/

theorem removeFirst_eq_none {α : Type} {p : α → Bool} {l : List α} :
    removeFirst p l = none ↔ ∀ x ∈ l, p x = false := by
  induction l with
  | nil => simp [removeFirst]
  | cons a l ih =>
    by_cases h : p a
    · simp [removeFirst, h]
    · cases hr : removeFirst p l with
      | none =>
        simp only [removeFirst, h, Bool.false_eq_true, if_false, hr]
        simp only [hr, true_iff] at ih
        refine ⟨fun _ x hx => ?_, fun _ => trivial⟩
        rcases List.mem_cons.mp hx with rfl | hx
        · exact Bool.eq_false_iff.mpr h
        · exact ih x hx
      | some y =>
        have hne : ¬ ∀ x ∈ l, p x = false := fun hall => by
          rw [ih.mpr hall] at hr; exact Option.noConfusion hr
        simp only [removeFirst, h, Bool.false_eq_true, if_false, hr]
        constructor
        · intro hc; exact absurd hc (by simp)
        · intro hall
          exact absurd (fun x hx => hall x (List.mem_cons_of_mem a hx)) hne

theorem removeFirst_eq_some {α : Type} {p : α → Bool} {l : List α} {a : α}
    {rest : List α} (h : removeFirst p l = some (a, rest)) :
    ∃ l1 l2, l = l1 ++ a :: l2 ∧ rest = l1 ++ l2 ∧
      (∀ x ∈ l1, p x = false) ∧ p a = true := by
  induction l generalizing rest with
  | nil => simp [removeFirst] at h
  | cons b l ih =>
    by_cases hb : p b
    · simp only [removeFirst, hb, if_true, Option.some.injEq, Prod.mk.injEq] at h
      exact ⟨[], l, by simp [h.1], by simp [h.2], by simp, h.1 ▸ hb⟩
    · cases hr : removeFirst p l with
      | none => simp [removeFirst, hb, hr] at h
      | some y =>
        rcases y with ⟨c, rest2⟩
        simp only [removeFirst, hb, Bool.false_eq_true, if_false, hr,
          Option.some.injEq, Prod.mk.injEq] at h
        rcases h with ⟨rfl, rfl⟩
        rcases ih hr with ⟨l1, l2, hl, hrest, hl1, hpa⟩
        refine ⟨b :: l1, l2, by simp [hl], by simp [hrest], ?_, hpa⟩
        intro x hx
        rcases List.mem_cons.mp hx with rfl | hx
        · simpa using hb
        · exact hl1 x hx

theorem removeFirst_sublist {α : Type} {p : α → Bool} {l : List α} {a : α}
    {rest : List α} (h : removeFirst p l = some (a, rest)) :
    rest.Sublist l := by
  rcases removeFirst_eq_some h with ⟨l1, l2, hl, hrest, -, -⟩
  rw [hl, hrest]
  exact (List.sublist_cons_self a l2).append_left l1

/-! ### The slot-id search and the lowest-free-id scan -/

theorem find_slot_id_some_eq (m : Nat) (c : Ctx) (i : Int) :
    dal_keystore_find_slot_id m (some c) i =
      if i < 0 ∨ (m : Int) ≤ i then none
      else c.slots.find? (fun s => (s.slot_id : Int) == i) := rfl

theorem findLowestFreeIdAux_zero (m : Nat) (c : Ctx) (id : Nat) :
    findLowestFreeIdAux m c 0 id = id := rfl

theorem findLowestFreeIdAux_succ (m : Nat) (c : Ctx) (fuel id : Nat) :
    findLowestFreeIdAux m c (fuel + 1) id =
      if (dal_keystore_find_slot_id m (some c) (id : Int)).isSome then
        findLowestFreeIdAux m c fuel (id + 1)
      else id := rfl

theorem find_slot_id_isSome_iff {m : Nat} {c : Ctx} {i : Nat} (hi : i < m) :
    (dal_keystore_find_slot_id m (some c) (i : Int)).isSome = true ↔
      i ∈ c.slots.map Slot.slot_id := by
  rw [find_slot_id_some_eq, if_neg]
  · rw [List.find?_isSome]
    simp only [List.mem_map, beq_iff_eq]
    constructor
    · rintro ⟨s, hs, he⟩
      exact ⟨s, hs, by exact_mod_cast he⟩
    · rintro ⟨s, hs, he⟩
      exact ⟨s, hs, by exact_mod_cast he⟩
  · push_neg
    constructor
    · exact Int.natCast_nonneg i
    · exact_mod_cast hi

theorem find_slot_id_eq_none_iff {m : Nat} {c : Ctx} {i : Nat} (hi : i < m) :
    dal_keystore_find_slot_id m (some c) (i : Int) = none ↔
      i ∉ c.slots.map Slot.slot_id := by
  rw [← Option.not_isSome_iff_eq_none, not_iff_not]
  exact find_slot_id_isSome_iff hi

theorem findLowestFreeIdAux_spec (m : Nat) (c : Ctx) (fuel id : Nat) :
    id ≤ findLowestFreeIdAux m c fuel id ∧
      findLowestFreeIdAux m c fuel id ≤ id + fuel ∧
      (∀ j, id ≤ j → j < findLowestFreeIdAux m c fuel id →
        (dal_keystore_find_slot_id m (some c) (j : Int)).isSome = true) ∧
      (findLowestFreeIdAux m c fuel id < id + fuel →
        dal_keystore_find_slot_id m (some c)
          ((findLowestFreeIdAux m c fuel id : Nat) : Int) = none) := by
  induction fuel generalizing id with
  | zero =>
    rw [findLowestFreeIdAux_zero]
    refine ⟨le_refl id, by omega, fun j h1 h2 => by omega, fun h => by omega⟩
  | succ fuel ih =>
    by_cases hf :
        (dal_keystore_find_slot_id m (some c) (id : Int)).isSome = true
    · have heq : findLowestFreeIdAux m c (fuel + 1) id =
          findLowestFreeIdAux m c fuel (id + 1) := by
        rw [findLowestFreeIdAux_succ, if_pos hf]
      rcases ih (id + 1) with ⟨h1, h2, h3, h4⟩
      rw [heq]
      refine ⟨by omega, by omega, fun j hj1 hj2 => ?_, fun h => h4 (by omega)⟩
      rcases Nat.eq_or_lt_of_le hj1 with rfl | hgt
      · exact hf
      · exact h3 j hgt hj2
    · have heq : findLowestFreeIdAux m c (fuel + 1) id = id := by
        rw [findLowestFreeIdAux_succ, if_neg hf]
      rw [heq]
      refine ⟨le_refl id, by omega, fun j h1 h2 => by omega, fun _ => ?_⟩
      exact Option.not_isSome_iff_eq_none.mp hf

theorem findLowestFreeId_le (m : Nat) (c : Ctx) : findLowestFreeId m c ≤ m :=
  by simpa using (findLowestFreeIdAux_spec m c m 0).2.1

theorem findLowestFreeId_used_below (m : Nat) (c : Ctx) :
    ∀ j < findLowestFreeId m c, j ∈ c.slots.map Slot.slot_id := by
  intro j hj
  have hjm : j < m := lt_of_lt_of_le hj (findLowestFreeId_le m c)
  exact (find_slot_id_isSome_iff hjm).mp
    ((findLowestFreeIdAux_spec m c m 0).2.2.1 j (Nat.zero_le j) hj)

theorem findLowestFreeId_not_used (m : Nat) (c : Ctx)
    (h : findLowestFreeId m c < m) :
    findLowestFreeId m c ∉ c.slots.map Slot.slot_id :=
  (find_slot_id_eq_none_iff h).mp
    ((findLowestFreeIdAux_spec m c m 0).2.2.2 (by simpa using h))

theorem findLowestFreeId_eq_of_all_used {m : Nat} {c : Ctx}
    (h : ∀ j < m, j ∈ c.slots.map Slot.slot_id) :
    findLowestFreeId m c = m := by
  rcases Nat.lt_or_ge (findLowestFreeId m c) m with hlt | hge
  · exact absurd (h _ hlt) (findLowestFreeId_not_used m c hlt)
  · exact le_antisymm (findLowestFreeId_le m c) hge

/-! ### Characterisations of the slot operations -/

theorem allocate_slot_some_eq {m : Nat} {c : Ctx}
    (h : findLowestFreeId m c < m) :
    dal_keystore_allocate_slot m (some c) =
      (some ⟨findLowestFreeId m c, [], 0⟩,
       some { c with slots := ⟨findLowestFreeId m c, [], 0⟩ :: c.slots }) := by
  simp only [dal_keystore_allocate_slot, h, if_true]

theorem allocate_slot_none_eq {m : Nat} {c : Ctx}
    (h : ¬ findLowestFreeId m c < m) :
    dal_keystore_allocate_slot m (some c) = (none, some c) := by
  simp only [dal_keystore_allocate_slot, h, if_false]

theorem allocate_slot_some_inv {m : Nat} {c : Ctx} {s : Slot} {c' : Ctx}
    (h : dal_keystore_allocate_slot m (some c) = (some s, some c')) :
    s = ⟨findLowestFreeId m c, [], 0⟩ ∧
      c' = { c with slots := s :: c.slots } ∧ findLowestFreeId m c < m := by
  by_cases hlt : findLowestFreeId m c < m
  · rw [allocate_slot_some_eq hlt] at h
    simp only [Prod.mk.injEq, Option.some.injEq] at h
    exact ⟨h.1.symm, by rw [← h.2, ← h.1], hlt⟩
  · rw [allocate_slot_none_eq hlt] at h
    simp at h

theorem free_slot_id_out_of_range {m : Nat} {c : Ctx} {i : Int}
    (h : i < 0 ∨ (m : Int) ≤ i) :
    dal_keystore_free_slot_id m (some c) i = (-EINVAL, some c, []) := by
  simp only [dal_keystore_free_slot_id, h, if_true]

theorem free_slot_id_in_range_eq {m : Nat} {c : Ctx} {i : Int}
    (h : ¬ (i < 0 ∨ (m : Int) ≤ i)) :
    dal_keystore_free_slot_id m (some c) i =
      match removeFirstSlot i c.slots with
      | some (s, rest) => (0, some { c with slots := rest }, [kzfreeSlot s])
      | none => (-EINVAL, some c, []) := by
  simp only [dal_keystore_free_slot_id, h, if_false, removeFirstSlot]

/-! ### Preservation of the registry invariant -/

theorem ctxGood_length {m : Nat} {c : Ctx} (h : CtxGood m c) :
    c.slots.length ≤ m := by
  rcases h with ⟨hnd, hlt⟩
  have hcard : (c.slots.map Slot.slot_id).toFinset.card =
      (c.slots.map Slot.slot_id).length := List.toFinset_card_of_nodup hnd
  have hsub : (c.slots.map Slot.slot_id).toFinset ⊆ Finset.range m := by
    intro x hx
    rw [List.mem_toFinset, List.mem_map] at hx
    rcases hx with ⟨s, hs, rfl⟩
    exact Finset.mem_range.mpr (hlt s hs)
  have := Finset.card_le_card hsub
  rw [hcard, Finset.card_range, List.length_map] at this
  exact this

theorem ctxGood_full_all_used {m : Nat} {c : Ctx} (h : CtxGood m c)
    (hlen : c.slots.length = m) : ∀ j < m, j ∈ c.slots.map Slot.slot_id := by
  rcases h with ⟨hnd, hlt⟩
  have hcard : (c.slots.map Slot.slot_id).toFinset.card = m := by
    rw [List.toFinset_card_of_nodup hnd, List.length_map, hlen]
  have hsub : (c.slots.map Slot.slot_id).toFinset ⊆ Finset.range m := by
    intro x hx
    rw [List.mem_toFinset, List.mem_map] at hx
    rcases hx with ⟨s, hs, rfl⟩
    exact Finset.mem_range.mpr (hlt s hs)
  have heq : (c.slots.map Slot.slot_id).toFinset = Finset.range m :=
    Finset.eq_of_subset_of_card_le hsub (by rw [hcard, Finset.card_range])
  intro j hj
  have : j ∈ (c.slots.map Slot.slot_id).toFinset := by
    rw [heq]; exact Finset.mem_range.mpr hj
  exact List.mem_toFinset.mp this

theorem ctxGood_allocSlotCtx {m : Nat} {c : Ctx} (h : CtxGood m c) :
    CtxGood m (allocSlotCtx m c) := by
  unfold allocSlotCtx
  by_cases hlt : findLowestFreeId m c < m
  · rw [allocate_slot_some_eq hlt]
    refine ⟨?_, ?_⟩
    · simp only [Option.getD_some, List.map_cons]
      exact List.nodup_cons.mpr ⟨findLowestFreeId_not_used m c hlt, h.1⟩
    · intro s hs
      simp only [Option.getD_some] at hs
      rcases List.mem_cons.mp hs with rfl | hs
      · exact hlt
      · exact h.2 s hs
  · rw [allocate_slot_none_eq hlt]
    exact h

theorem allocSlotCtx_cid (m : Nat) (c : Ctx) :
    (allocSlotCtx m c).cid = c.cid := by
  unfold allocSlotCtx
  by_cases hlt : findLowestFreeId m c < m
  · rw [allocate_slot_some_eq hlt]
    rfl
  · rw [allocate_slot_none_eq hlt]
    rfl

theorem freeSlotCtx_slots_sublist (m : Nat) (i : Int) (c : Ctx) :
    (freeSlotCtx m i c).slots.Sublist c.slots ∧
      (freeSlotCtx m i c).cid = c.cid := by
  unfold freeSlotCtx
  by_cases h : i < 0 ∨ (m : Int) ≤ i
  · rw [free_slot_id_out_of_range h]
    exact ⟨List.Sublist.refl _, rfl⟩
  · rw [free_slot_id_in_range_eq h]
    cases hr : removeFirstSlot i c.slots with
    | none => exact ⟨List.Sublist.refl _, rfl⟩
    | some y =>
      rcases y with ⟨s, rest⟩
      exact ⟨removeFirst_sublist hr, rfl⟩

theorem ctxGood_of_slots_sublist {m : Nat} {c c' : Ctx}
    (hsub : c'.slots.Sublist c.slots) (h : CtxGood m c) : CtxGood m c' :=
  ⟨(hsub.map Slot.slot_id).nodup h.1, fun s hs => h.2 s (hsub.subset hs)⟩

theorem ctxGood_freeSlotCtx {m : Nat} {i : Int} {c : Ctx} (h : CtxGood m c) :
    CtxGood m (freeSlotCtx m i c) :=
  ctxGood_of_slots_sublist (freeSlotCtx_slots_sublist m i c).1 h

theorem setKeyCtx_map_slot_id (sid : Nat) (key : List Byte) (c : Ctx) :
    (setKeyCtx sid key c).slots.map Slot.slot_id =
      c.slots.map Slot.slot_id := by
  unfold setKeyCtx
  rw [List.map_map]
  refine List.map_congr_left (fun s _ => ?_)
  by_cases h : s.slot_id = sid
  · simp [h]
  · simp [h]

theorem ctxGood_setKeyCtx {m : Nat} {sid : Nat} {key : List Byte} {c : Ctx}
    (h : CtxGood m c) : CtxGood m (setKeyCtx sid key c) := by
  refine ⟨by rw [setKeyCtx_map_slot_id]; exact h.1, ?_⟩
  intro s hs
  unfold setKeyCtx at hs
  rw [List.mem_map] at hs
  rcases hs with ⟨t, ht, rfl⟩
  by_cases he : t.slot_id = sid
  · simpa [he] using h.2 t ht
  · simpa [he] using h.2 t ht

theorem ctxGood_setTicketCtx {m : Nat} {t : List Byte} {c : Ctx}
    (h : CtxGood m c) : CtxGood m (setTicketCtx t c) := h

/-! ### Characterisations of the context operations -/

theorem allocate_context_lt_eq {mc ts : Nat} {st : KS}
    (h : st.contexts.length < mc) :
    dal_keystore_allocate_context mc ts st =
      (some ⟨st.nextId, List.replicate ts 0, []⟩,
       ⟨⟨st.nextId, List.replicate ts 0, []⟩ :: st.contexts,
        st.nextId + 1⟩) := by
  simp only [dal_keystore_allocate_context, h, if_true]

theorem allocate_context_full_eq {mc ts : Nat} {st : KS}
    (h : ¬ st.contexts.length < mc) :
    dal_keystore_allocate_context mc ts st = (none, st) := by
  simp only [dal_keystore_allocate_context, h, if_false]

theorem free_context_ctx_found_eq {cid : Nat} {st : KS} {c : Ctx}
    {rest : List Ctx}
    (h : removeFirstCtx (fun c => c.cid == cid) st.contexts =
      some (c, rest)) :
    dal_keystore_free_context_ctx (some cid) st =
      (0, ⟨rest, st.nextId⟩, deinit_context_struct c) := by
  simp only [dal_keystore_free_context_ctx, h]

theorem free_context_ctx_notfound_eq {cid : Nat} {st : KS}
    (h : removeFirstCtx (fun c => c.cid == cid) st.contexts = none) :
    dal_keystore_free_context_ctx (some cid) st = (-EINVAL, st, []) := by
  simp only [dal_keystore_free_context_ctx, h]

theorem free_context_ticket_found_eq {tsize : Nat} {t : List Byte} {st : KS}
    {c : Ctx} {rest : List Ctx}
    (h : removeFirstCtx (fun c => memcmpEqN tsize t c.client_ticket)
      st.contexts = some (c, rest)) :
    dal_keystore_free_context_ticket tsize (some t) st =
      (0, ⟨rest, st.nextId⟩, deinit_context_struct c) := by
  simp only [dal_keystore_free_context_ticket, h]

theorem free_context_ticket_notfound_eq {tsize : Nat} {t : List Byte}
    {st : KS}
    (h : removeFirstCtx (fun c => memcmpEqN tsize t c.client_ticket)
      st.contexts = none) :
    dal_keystore_free_context_ticket tsize (some t) st =
      (-EINVAL, st, []) := by
  simp only [dal_keystore_free_context_ticket, h]

/-! ### Preservation of the registry invariant by every operation -/

theorem updateCtx_length (cid : Nat) (f : Ctx → Ctx) (l : List Ctx) :
    (updateCtx cid f l).length = l.length := by
  unfold updateCtx; rw [List.length_map]

theorem updateCtx_map_cid {f : Ctx → Ctx} (hf : ∀ c, (f c).cid = c.cid)
    (cid : Nat) (l : List Ctx) :
    (updateCtx cid f l).map Ctx.cid = l.map Ctx.cid := by
  unfold updateCtx
  rw [List.map_map]
  refine List.map_congr_left (fun c _ => ?_)
  by_cases h : c.cid = cid
  · simp [h, hf]
  · simp [h]

theorem ctxGood_updateCtx {m : Nat} {cid : Nat} {f : Ctx → Ctx}
    {l : List Ctx} (hf : ∀ c, CtxGood m c → CtxGood m (f c))
    (hl : ∀ c ∈ l, CtxGood m c) :
    ∀ c ∈ updateCtx cid f l, CtxGood m c := by
  intro c hc
  unfold updateCtx at hc
  rw [List.mem_map] at hc
  rcases hc with ⟨c0, hc0, rfl⟩
  by_cases h : c0.cid = cid
  · simpa [h] using hf c0 (hl c0 hc0)
  · simpa [h] using hl c0 hc0

theorem ksGood_updateCtx {P : Params} {st : KS} {cid : Nat} {f : Ctx → Ctx}
    (hcid : ∀ c, (f c).cid = c.cid)
    (hgood : ∀ c, CtxGood P.maxSlots c → CtxGood P.maxSlots (f c))
    (h : KSGood P st) :
    KSGood P ⟨updateCtx cid f st.contexts, st.nextId⟩ := by
  rcases h with ⟨h1, h2, h3, h4⟩
  refine ⟨?_, ctxGood_updateCtx hgood h2, ?_, ?_⟩
  · show (updateCtx cid f st.contexts).length ≤ P.maxClients
    rw [updateCtx_length]; exact h1
  · show ((updateCtx cid f st.contexts).map Ctx.cid).Pairwise _
    rw [updateCtx_map_cid hcid]; exact h3
  · intro c hc
    unfold updateCtx at hc
    rw [List.mem_map] at hc
    rcases hc with ⟨c0, hc0, rfl⟩
    by_cases hif : c0.cid = cid
    · simpa [hif, hcid] using h4 c0 hc0
    · simpa [hif] using h4 c0 hc0

theorem ksGood_of_sublist {P : Params} {st : KS} {l : List Ctx}
    (hsub : l.Sublist st.contexts) (h : KSGood P st) :
    KSGood P ⟨l, st.nextId⟩ := by
  rcases h with ⟨h1, h2, h3, h4⟩
  exact ⟨le_trans hsub.length_le h1,
         fun c hc => h2 c (hsub.subset hc),
         List.Pairwise.sublist (hsub.map Ctx.cid) h3,
         fun c hc => h4 c (hsub.subset hc)⟩

theorem ksGood_step (P : Params) (op : Op) {st : KS} (h : KSGood P st) :
    KSGood P (step P op st) := by
  cases op with
  | allocCtx =>
    show KSGood P (dal_keystore_allocate_context P.maxClients P.tsize st).2
    by_cases hlen : st.contexts.length < P.maxClients
    · rw [allocate_context_lt_eq hlen]
      rcases h with ⟨h1, h2, h3, h4⟩
      refine ⟨?_, ?_, ?_, ?_⟩
      · show st.contexts.length + 1 ≤ P.maxClients
        omega
      · intro c hc
        rcases List.mem_cons.mp hc with rfl | hc
        · exact ⟨List.nodup_nil, fun s hs => absurd hs (List.not_mem_nil s)⟩
        · exact h2 c hc
      · show (st.nextId :: st.contexts.map Ctx.cid).Pairwise (fun a b => b < a)
        refine List.pairwise_cons.mpr ⟨?_, h3⟩
        intro x hx
        rw [List.mem_map] at hx
        rcases hx with ⟨c, hc, rfl⟩
        exact h4 c hc
      · intro c hc
        rcases List.mem_cons.mp hc with rfl | hc
        · show st.nextId < st.nextId + 1; omega
        · have := h4 c hc; show c.cid < st.nextId + 1; omega
    · rw [allocate_context_full_eq hlen]
      exact h
  | freeCtxPtr p =>
    cases p with
    | none => exact h
    | some cid =>
      show KSGood P (dal_keystore_free_context_ctx (some cid) st).2.1
      cases hr : removeFirstCtx (fun c => c.cid == cid) st.contexts with
      | none => rw [free_context_ctx_notfound_eq hr]; exact h
      | some y =>
        rcases y with ⟨c, rest⟩
        rw [free_context_ctx_found_eq hr]
        exact ksGood_of_sublist (removeFirst_sublist hr) h
  | freeCtxTicket t =>
    cases t with
    | none => exact h
    | some t =>
      show KSGood P (dal_keystore_free_context_ticket P.tsize (some t) st).2.1
      cases hr : removeFirstCtx
          (fun c => memcmpEqN P.tsize t c.client_ticket) st.contexts with
      | none => rw [free_context_ticket_notfound_eq hr]; exact h
      | some y =>
        rcases y with ⟨c, rest⟩
        rw [free_context_ticket_found_eq hr]
        exact ksGood_of_sublist (removeFirst_sublist hr) h
  | freeAll =>
    exact ⟨Nat.zero_le _, fun c hc => absurd hc (List.not_mem_nil c),
      List.Pairwise.nil, fun c hc => absurd hc (List.not_mem_nil c)⟩
  | allocSlot p =>
    cases p with
    | none => exact h
    | some cid =>
      exact ksGood_updateCtx (allocSlotCtx_cid P.maxSlots)
        (fun c hc => ctxGood_allocSlotCtx hc) h
  | freeSlot p sid =>
    cases p with
    | none => exact h
    | some cid =>
      exact ksGood_updateCtx
        (fun c => (freeSlotCtx_slots_sublist P.maxSlots sid c).2)
        (fun c hc => ctxGood_freeSlotCtx hc) h
  | setTicket cid t =>
    exact ksGood_updateCtx (fun c => rfl)
      (fun c hc => ctxGood_setTicketCtx hc) h
  | setKey cid sid key =>
    exact ksGood_updateCtx (fun c => rfl)
      (fun c hc => ctxGood_setKeyCtx hc) h

theorem reachable_good {P : Params} {st : KS} (h : Reachable P st) :
    KSGood P st := by
  induction h with
  | init =>
    exact ⟨Nat.zero_le _, fun c hc => absurd hc (List.not_mem_nil c),
      List.Pairwise.nil, fun c hc => absurd hc (List.not_mem_nil c)⟩
  | next op hst ih => exact ksGood_step _ op ih

/-! ### Concrete fixtures used by the examples -/

/-- A context as after allocating slot ids 0, 1, 2 and then freeing id 1
(head of the list = most recently inserted). -/
def ctxAfterFree1 : Ctx := ⟨0, [], [⟨2, [], 0⟩, ⟨0, [], 0⟩]⟩

/-- A context holding slots with ids 1 and 0 and one key byte each. -/
def ctxTwoSlots : Ctx := ⟨0, [], [⟨1, [7], 1⟩, ⟨0, [8], 1⟩]⟩

/-- Capacity parameters: two contexts, two slots, two ticket bytes. -/
def P22 : Params := ⟨2, 2, 2⟩

/-- The registry after two allocate_context calls (both tickets still the
`kzalloc` zero bytes). -/
def stTwo : KS := step P22 .allocCtx (step P22 .allocCtx initKS)

/-- The registry `stTwo` after two allocate_slot calls on context 0. -/
def stFull : KS :=
  step P22 (.allocSlot (some 0)) (step P22 (.allocSlot (some 0)) stTwo)

/-- A registry with a single context whose ticket is [1, 2]. -/
def stOne : KS := ⟨[⟨0, [1, 2], []⟩], 1⟩

/-- A registry with two contexts carrying the same ticket [5, 5]. -/
def stDup : KS := ⟨[⟨1, [5, 5], []⟩, ⟨0, [5, 5], []⟩], 2⟩

/-- A registry with two contexts carrying distinct tickets. -/
def stDistinct : KS := ⟨[⟨1, [5, 5], []⟩, ⟨0, [6, 6], []⟩], 2⟩

/-! ### C1: allocate_slot returns the lowest free id -/

/-- C1: a successful `dal_keystore_allocate_slot` returns a slot whose id
is the smallest integer in `[0, maxSlots)` not currently used by any slot
of the context: the id is in range, unused, and every smaller id is in
use. -/
theorem C1_allocate_slot_lowest_free {m : Nat} {c : Ctx} {s : Slot}
    {c' : Ctx}
    (h : dal_keystore_allocate_slot m (some c) = (some s, some c')) :
    s.slot_id < m ∧ s.slot_id ∉ c.slots.map Slot.slot_id ∧
      ∀ j < s.slot_id, j ∈ c.slots.map Slot.slot_id := by
  rcases allocate_slot_some_inv h with ⟨hs, -, hlt⟩
  subst hs
  exact ⟨hlt, findLowestFreeId_not_used m c hlt,
    fun j hj => findLowestFreeId_used_below m c j hj⟩

/-- C1 witness: after allocating ids 0, 1, 2 and freeing id 1, the next
allocation returns id 1, not 3: id 1 is below the bound, unused, and id 0
is in use. -/
theorem C1_witness :
    (Slot.mk 1 [] 0).slot_id < 4 ∧
      (Slot.mk 1 [] 0).slot_id ∉ ctxAfterFree1.slots.map Slot.slot_id ∧
      ∀ j < (Slot.mk 1 [] 0).slot_id,
        j ∈ ctxAfterFree1.slots.map Slot.slot_id :=
  @C1_allocate_slot_lowest_free 4 ctxAfterFree1 ⟨1, [], 0⟩
    ⟨0, [], [⟨1, [], 0⟩, ⟨2, [], 0⟩, ⟨0, [], 0⟩]⟩ (by decide)

/-! ### C5: iteration order of the slot list -/

/-- C5 fails as stated: two successive allocations into an empty context
leave the slot list with ids [1, 0] — the slot allocated first (id 0)
comes last, not first, because list_add inserts at the head. -/
theorem C5_counterexample :
    ((dal_keystore_allocate_slot 4
        ((dal_keystore_allocate_slot 4 (some ⟨0, [], []⟩)).2)).2).map
      (fun c => c.slots.map Slot.slot_id) = some [1, 0] ∧
      ([1, 0] : List Nat) ≠ [0, 1] := by decide

/-- C5 amended: the slot collection is iterated in reverse allocation
order — a successful allocate_slot prepends the new slot at the head of
the context's slot list, so the most recently allocated slot comes
first. -/
theorem C5_alloc_prepends {m : Nat} {c : Ctx} {s : Slot} {c' : Ctx}
    (h : dal_keystore_allocate_slot m (some c) = (some s, some c')) :
    c'.slots = s :: c.slots := by
  rcases allocate_slot_some_inv h with ⟨-, hc, -⟩
  rw [hc]

/-- C5 witness: allocating into a context holding slot 0 prepends the new
slot 1 at the head. -/
theorem C5_witness :
    (Ctx.mk 0 [] [⟨1, [], 0⟩, ⟨0, [], 0⟩]).slots =
      (⟨1, [], 0⟩ : Slot) :: (Ctx.mk 0 [] [⟨0, [], 0⟩]).slots :=
  @C5_alloc_prepends 4 ⟨0, [], [⟨0, [], 0⟩]⟩ ⟨1, [], 0⟩
    ⟨0, [], [⟨1, [], 0⟩, ⟨0, [], 0⟩]⟩ (by decide)

/-! ### C6: error results of free_slot -/

/-- C6 fails as stated: freeing the in-range id 0 from an empty context
(no such slot) returns the same -EINVAL as the out-of-range id 7, so the
lookup miss is not reported by an error distinct from the out-of-range
error; a null context yields -EFAULT. -/
theorem C6_counterexample :
    (dal_keystore_free_slot_id 4 (some ⟨0, [], []⟩) 0).1 = -EINVAL ∧
    (dal_keystore_free_slot_id 4 (some ⟨0, [], []⟩) 7).1 = -EINVAL ∧
    (dal_keystore_free_slot_id 4 none 0).1 = -EFAULT := by decide

/-- C6 amended: dal_keystore_free_slot_id returns -EFAULT for a null
context and -EINVAL for an out-of-range id; when the id is in range but
no slot carries it, it returns the same -EINVAL (not a distinct NotFound
code); on success it returns 0 and removes exactly the first slot with
that id, leaving the rest of the list intact. -/
theorem C6_free_slot_errors (m : Nat) (c : Ctx) (i : Int) :
    dal_keystore_free_slot_id m none i = (-EFAULT, none, []) ∧
    ((i < 0 ∨ (m : Int) ≤ i) →
      dal_keystore_free_slot_id m (some c) i = (-EINVAL, some c, [])) ∧
    (¬ (i < 0 ∨ (m : Int) ≤ i) → (∀ s ∈ c.slots, (s.slot_id : Int) ≠ i) →
      dal_keystore_free_slot_id m (some c) i = (-EINVAL, some c, [])) ∧
    (∀ c' rel, dal_keystore_free_slot_id m (some c) i = (0, some c', rel) →
      ∃ l1 s l2, c.slots = l1 ++ s :: l2 ∧ (s.slot_id : Int) = i ∧
        (∀ x ∈ l1, (x.slot_id : Int) ≠ i) ∧ c'.slots = l1 ++ l2) := by
  refine ⟨rfl, fun hr => free_slot_id_out_of_range hr, ?_, ?_⟩
  · intro hrange hmiss
    have hr : removeFirstSlot i c.slots = none := by
      unfold removeFirstSlot
      exact removeFirst_eq_none.mpr
        (fun s hs => beq_eq_false_iff_ne.mpr (hmiss s hs))
    rw [free_slot_id_in_range_eq hrange, hr]
  · intro c' rel heq
    by_cases hrange : i < 0 ∨ (m : Int) ≤ i
    · rw [free_slot_id_out_of_range hrange] at heq
      simp [EINVAL] at heq
    · rw [free_slot_id_in_range_eq hrange] at heq
      cases hr : removeFirstSlot i c.slots with
      | none =>
        rw [hr] at heq
        simp [EINVAL] at heq
      | some y =>
        rcases y with ⟨s, rest⟩
        rw [hr] at heq
        simp only [Prod.mk.injEq, Option.some.injEq] at heq
        unfold removeFirstSlot at hr
        rcases removeFirst_eq_some hr with ⟨l1, l2, hdec, hrest, hl1, hps⟩
        refine ⟨l1, s, l2, hdec, by exact_mod_cast beq_iff_eq.mp hps, ?_, ?_⟩
        · exact fun x hx => beq_eq_false_iff_ne.mp (hl1 x hx)
        · rw [← heq.2.1, hrest]

/-- C6 witness: on a context with slots 1 and 0 (bound 4), id 7 is
rejected with -EINVAL, the absent in-range id 2 also yields -EINVAL, and
freeing id 0 removes exactly that slot. -/
theorem C6_witness :
    dal_keystore_free_slot_id 4 (some ctxTwoSlots) 7 =
      (-EINVAL, some ctxTwoSlots, []) ∧
    dal_keystore_free_slot_id 4 (some ctxTwoSlots) 2 =
      (-EINVAL, some ctxTwoSlots, []) ∧
    ∃ l1 s l2, ctxTwoSlots.slots = l1 ++ s :: l2 ∧ (s.slot_id : Int) = 0 ∧
      (∀ x ∈ l1, (x.slot_id : Int) ≠ 0) ∧
      (Ctx.mk 0 [] [⟨1, [7], 1⟩]).slots = l1 ++ l2 :=
  ⟨(C6_free_slot_errors 4 ctxTwoSlots 7).2.1 (by decide),
   (C6_free_slot_errors 4 ctxTwoSlots 2).2.2.1 (by decide) (by decide),
   (C6_free_slot_errors 4 ctxTwoSlots 0).2.2.2 ⟨0, [], [⟨1, [7], 1⟩]⟩
     [[0]] (by decide)⟩

/-! ### C3: secure erase on every destruction path -/

theorem kzfreeSlot_zero (s : Slot) : ∀ x ∈ kzfreeSlot s, x = 0 :=
  fun _ hx => List.eq_of_mem_replicate hx

theorem deinit_context_struct_zero (c : Ctx) :
    ∀ b ∈ deinit_context_struct c, ∀ x ∈ b, x = 0 := by
  intro b hb
  unfold deinit_context_struct at hb
  rw [List.mem_map] at hb
  rcases hb with ⟨s, -, rfl⟩
  exact kzfreeSlot_zero s

/-- C3: on every destruction path — free_slot, freeing a context by
identity or by ticket, and free_all_contexts — the released wrapped-key
memory contains only zero bytes at the moment it is handed back to the
allocator. -/
theorem C3_secure_erase :
    (∀ (m : Nat) (ctx : Option Ctx) (i : Int),
      ∀ b ∈ (dal_keystore_free_slot_id m ctx i).2.2, ∀ x ∈ b, x = 0) ∧
    (∀ (p : Option Nat) (st : KS),
      ∀ b ∈ (dal_keystore_free_context_ctx p st).2.2, ∀ x ∈ b, x = 0) ∧
    (∀ (ts : Nat) (t : Option (List Byte)) (st : KS),
      ∀ b ∈ (dal_keystore_free_context_ticket ts t st).2.2,
        ∀ x ∈ b, x = 0) ∧
    (∀ st : KS, ∀ b ∈ (dal_keystore_free_contexts st).2, ∀ x ∈ b, x = 0) := by
  refine ⟨?_, ?_, ?_, ?_⟩
  · intro m ctx i b hb
    cases ctx with
    | none => simp [dal_keystore_free_slot_id] at hb
    | some c =>
      by_cases hrange : i < 0 ∨ (m : Int) ≤ i
      · rw [free_slot_id_out_of_range hrange] at hb
        simp at hb
      · rw [free_slot_id_in_range_eq hrange] at hb
        cases hr : removeFirstSlot i c.slots with
        | none => rw [hr] at hb; simp at hb
        | some y =>
          rcases y with ⟨s, rest⟩
          rw [hr] at hb
          simp only [List.mem_singleton] at hb
          subst hb
          exact kzfreeSlot_zero s
  · intro p st b hb
    cases p with
    | none => simp [dal_keystore_free_context_ctx] at hb
    | some cid =>
      cases hr : removeFirstCtx (fun c => c.cid == cid) st.contexts with
      | none => rw [free_context_ctx_notfound_eq hr] at hb; simp at hb
      | some y =>
        rcases y with ⟨c, rest⟩
        rw [free_context_ctx_found_eq hr] at hb
        exact deinit_context_struct_zero c b hb
  · intro ts t st b hb
    cases t with
    | none => simp [dal_keystore_free_context_ticket] at hb
    | some t =>
      cases hr : removeFirstCtx
          (fun c => memcmpEqN ts t c.client_ticket) st.contexts with
      | none => rw [free_context_ticket_notfound_eq hr] at hb; simp at hb
      | some y =>
        rcases y with ⟨c, rest⟩
        rw [free_context_ticket_found_eq hr] at hb
        exact deinit_context_struct_zero c b hb
  · intro st b hb
    simp only [dal_keystore_free_contexts, List.mem_flatten,
      List.mem_map] at hb
    rcases hb with ⟨l, ⟨c, -, rfl⟩, hbl⟩
    exact deinit_context_struct_zero c b hbl

/-- C3 witness: freeing slot 0 (key byte 8) of a two-slot context releases
the buffer [0]; its byte is zero. -/
theorem C3_witness : (0 : Byte) = 0 :=
  C3_secure_erase.1 4 (some ctxTwoSlots) 0 [0] (by decide) 0 (by decide)

/-! ### C9: failed calls leave the registry untouched -/

/-- C9: every operation that reports an error returns the state it was
given, unchanged, and releases no memory: a failed allocate_context or
allocate_slot returns the input state, and a failed free (by pointer, by
ticket, or of a slot) returns the input state with an empty release
list.  The two find operations are read-only by construction. -/
theorem C9_error_leaves_state :
    (∀ (mc ts : Nat) (st : KS),
      (dal_keystore_allocate_context mc ts st).1 = none →
      (dal_keystore_allocate_context mc ts st).2 = st) ∧
    (∀ (m : Nat) (ctx : Option Ctx),
      (dal_keystore_allocate_slot m ctx).1 = none →
      (dal_keystore_allocate_slot m ctx).2 = ctx) ∧
    (∀ (p : Option Nat) (st : KS),
      (dal_keystore_free_context_ctx p st).1 ≠ 0 →
      (dal_keystore_free_context_ctx p st).2 = (st, [])) ∧
    (∀ (ts : Nat) (t : Option (List Byte)) (st : KS),
      (dal_keystore_free_context_ticket ts t st).1 ≠ 0 →
      (dal_keystore_free_context_ticket ts t st).2 = (st, [])) ∧
    (∀ (m : Nat) (ctx : Option Ctx) (i : Int),
      (dal_keystore_free_slot_id m ctx i).1 ≠ 0 →
      (dal_keystore_free_slot_id m ctx i).2 = (ctx, [])) := by
  refine ⟨?_, ?_, ?_, ?_, ?_⟩
  · intro mc ts st h
    by_cases hlen : st.contexts.length < mc
    · rw [allocate_context_lt_eq hlen] at h
      simp at h
    · rw [allocate_context_full_eq hlen]
  · intro m ctx h
    cases ctx with
    | none => rfl
    | some c =>
      by_cases hlt : findLowestFreeId m c < m
      · rw [allocate_slot_some_eq hlt] at h
        simp at h
      · rw [allocate_slot_none_eq hlt]
  · intro p st h
    cases p with
    | none => rfl
    | some cid =>
      cases hr : removeFirstCtx (fun c => c.cid == cid) st.contexts with
      | none => rw [free_context_ctx_notfound_eq hr]
      | some y =>
        rcases y with ⟨c, rest⟩
        rw [free_context_ctx_found_eq hr] at h
        simp at h
  · intro ts t st h
    cases t with
    | none => rfl
    | some t =>
      cases hr : removeFirstCtx
          (fun c => memcmpEqN ts t c.client_ticket) st.contexts with
      | none => rw [free_context_ticket_notfound_eq hr]
      | some y =>
        rcases y with ⟨c, rest⟩
        rw [free_context_ticket_found_eq hr] at h
        simp at h
  · intro m ctx i h
    cases ctx with
    | none => rfl
    | some c =>
      by_cases hrange : i < 0 ∨ (m : Int) ≤ i
      · rw [free_slot_id_out_of_range hrange]
      · rw [free_slot_id_in_range_eq hrange] at h ⊢
        cases hr : removeFirstSlot i c.slots with
        | none => rfl
        | some y =>
          rcases y with ⟨s, rest⟩
          rw [hr] at h
          simp at h

/-- C9 witness: a full registry leaves allocate_context's state unchanged,
a full context leaves allocate_slot's context unchanged, and misses of the
three free operations leave their inputs unchanged with nothing
released. -/
theorem C9_witness :
    (dal_keystore_allocate_context 0 2 initKS).2 = initKS ∧
    (dal_keystore_allocate_slot 0 (some ⟨0, [], []⟩)).2 =
      some ⟨0, [], []⟩ ∧
    (dal_keystore_free_context_ctx (some 0) initKS).2 = (initKS, []) ∧
    (dal_keystore_free_context_ticket 2 (some [1, 2]) initKS).2 =
      (initKS, []) ∧
    (dal_keystore_free_slot_id 4 (some ⟨0, [], []⟩) 0).2 =
      (some ⟨0, [], []⟩, []) :=
  ⟨C9_error_leaves_state.1 0 2 initKS (by decide),
   C9_error_leaves_state.2.1 0 (some ⟨0, [], []⟩) (by decide),
   C9_error_leaves_state.2.2.1 (some 0) initKS (by decide),
   C9_error_leaves_state.2.2.2.1 2 (some [1, 2]) initKS (by decide),
   C9_error_leaves_state.2.2.2.2 4 (some ⟨0, [], []⟩) 0 (by decide)⟩

/-! ### C2: capacity ceilings -/

/-- C2: in every reachable registry state there are at most maxClients
live contexts and every context holds at most maxSlots slots; when the
registry is full, allocate_context fails returning the state unchanged,
and when a context is full, allocate_slot on it fails returning the
context unchanged. -/
theorem C2_capacity {P : Params} {st : KS} (h : Reachable P st) :
    st.contexts.length ≤ P.maxClients ∧
    (∀ c ∈ st.contexts, c.slots.length ≤ P.maxSlots) ∧
    (st.contexts.length = P.maxClients →
      dal_keystore_allocate_context P.maxClients P.tsize st = (none, st)) ∧
    (∀ c ∈ st.contexts, c.slots.length = P.maxSlots →
      dal_keystore_allocate_slot P.maxSlots (some c) = (none, some c)) := by
  rcases reachable_good h with ⟨h1, h2, -, -⟩
  refine ⟨h1, fun c hc => ctxGood_length (h2 c hc), fun hfull => ?_,
    fun c hc hfull => ?_⟩
  · exact allocate_context_full_eq (by omega)
  · have hall : findLowestFreeId P.maxSlots c = P.maxSlots :=
      findLowestFreeId_eq_of_all_used (ctxGood_full_all_used (h2 c hc) hfull)
    exact allocate_slot_none_eq (by omega)

/-- C2 witness: in the reachable state with two contexts (capacity 2) of
which context 0 holds two slots (capacity 2), a further allocate_context
fails unchanged and a further allocate_slot on the full context fails
unchanged. -/
theorem C2_witness :
    stFull.contexts.length ≤ 2 ∧
    dal_keystore_allocate_context 2 2 stFull = (none, stFull) ∧
    dal_keystore_allocate_slot 2
        (some ⟨0, [0, 0], [⟨1, [], 0⟩, ⟨0, [], 0⟩]⟩) =
      (none, some ⟨0, [0, 0], [⟨1, [], 0⟩, ⟨0, [], 0⟩]⟩) :=
  ⟨(@C2_capacity P22 stFull (Reachable.next (Op.allocSlot (some 0))
      (Reachable.next (Op.allocSlot (some 0)) (Reachable.next Op.allocCtx
        (Reachable.next Op.allocCtx Reachable.init))))).1,
   (@C2_capacity P22 stFull (Reachable.next (Op.allocSlot (some 0))
      (Reachable.next (Op.allocSlot (some 0)) (Reachable.next Op.allocCtx
        (Reachable.next Op.allocCtx Reachable.init))))).2.2.1 (by decide),
   (@C2_capacity P22 stFull (Reachable.next (Op.allocSlot (some 0))
      (Reachable.next (Op.allocSlot (some 0)) (Reachable.next Op.allocCtx
        (Reachable.next Op.allocCtx Reachable.init))))).2.2.2
     ⟨0, [0, 0], [⟨1, [], 0⟩, ⟨0, [], 0⟩]⟩ (by decide) (by decide)⟩

/-! ### C4: slot ids are unique within a context -/

/-- C4: in every reachable registry state, no two live slots of one
context share a slot_id, and one further step of any operation preserves
this uniqueness. -/
theorem C4_unique_ids {P : Params} {st : KS} (h : Reachable P st) :
    (∀ c ∈ st.contexts, (c.slots.map Slot.slot_id).Nodup) ∧
    ∀ op, ∀ c ∈ (step P op st).contexts,
      (c.slots.map Slot.slot_id).Nodup :=
  ⟨fun c hc => ((reachable_good h).2.1 c hc).1,
   fun op c hc => ((reachable_good (Reachable.next op h)).2.1 c hc).1⟩

/-- C4 witness: in the reachable state where context 0 holds slots 1 and
0, that context's slot ids are pairwise distinct. -/
theorem C4_witness :
    ((Ctx.mk 0 [0, 0] [⟨1, [], 0⟩, ⟨0, [], 0⟩]).slots.map
      Slot.slot_id).Nodup :=
  (@C4_unique_ids P22 stFull (Reachable.next (Op.allocSlot (some 0))
      (Reachable.next (Op.allocSlot (some 0)) (Reachable.next Op.allocCtx
        (Reachable.next Op.allocCtx Reachable.init))))).1
    ⟨0, [0, 0], [⟨1, [], 0⟩, ⟨0, [], 0⟩]⟩ (by decide)

/-! ### C7: find_context_by_ticket -/

/-- C7 fails as stated: a null ticket does not fail with an error distinct
from NotFound — the call returns the very same NULL that a lookup miss
(here a ticket differing from the stored [1, 2] in one byte) returns. -/
theorem C7_counterexample :
    dal_keystore_find_context_ticket 2 none stOne = none ∧
    dal_keystore_find_context_ticket 2 (some [1, 3]) stOne = none ∧
    dal_keystore_find_context_ticket 2 none stOne =
      dal_keystore_find_context_ticket 2 (some [1, 3]) stOne := by decide

/-- C7 amended: find_context_ticket returns the first context in registry
order whose ticket matches byte-for-byte over the ticket length, returns
NULL exactly when no live context matches (including tickets differing in
a single byte), and also returns the same NULL — not a distinct error —
for a null ticket; it takes and returns no state, so it mutates
nothing. -/
theorem C7_find_ticket (ts : Nat) (t : List Byte) (st : KS) :
    dal_keystore_find_context_ticket ts none st = none ∧
    (∀ c, dal_keystore_find_context_ticket ts (some t) st = some c →
      ∃ l1 l2, st.contexts = l1 ++ c :: l2 ∧
        memcmpEqN ts t c.client_ticket = true ∧
        ∀ x ∈ l1, memcmpEqN ts t x.client_ticket = false) ∧
    (dal_keystore_find_context_ticket ts (some t) st = none ↔
      ∀ c ∈ st.contexts, memcmpEqN ts t c.client_ticket = false) := by
  refine ⟨rfl, ?_, ?_⟩
  · intro c hc
    have hc' : st.contexts.find?
        (fun c => memcmpEqN ts t c.client_ticket) = some c := hc
    rw [List.find?_eq_some] at hc'
    rcases hc' with ⟨hpc, as, bs, hdec, hall⟩
    exact ⟨as, bs, hdec, hpc, fun x hx => by simpa using hall x hx⟩
  · show st.contexts.find? (fun c => memcmpEqN ts t c.client_ticket) =
      none ↔ _
    rw [List.find?_eq_none]
    constructor
    · intro hmiss c hcmem
      exact Bool.eq_false_iff.mpr (hmiss c hcmem)
    · intro hall c hcmem
      simp [hall c hcmem]

/-- C7 witness: on a one-context registry with ticket [1, 2], searching
for [1, 2] yields that context as the first match in registry order. -/
theorem C7_witness :
    ∃ l1 l2, stOne.contexts = l1 ++ (Ctx.mk 0 [1, 2] []) :: l2 ∧
      memcmpEqN 2 [1, 2] (Ctx.mk 0 [1, 2] []).client_ticket = true ∧
      ∀ x ∈ l1, memcmpEqN 2 [1, 2] x.client_ticket = false :=
  (C7_find_ticket 2 [1, 2] stOne).2.1 ⟨0, [1, 2], []⟩ (by decide)

/-! ### C8: free by ticket followed by find -/

/-- C8 fails as stated: with two live contexts both carrying ticket
[5, 5], free_context_ticket succeeds yet a subsequent find with the same
ticket still returns a context, not NotFound. -/
theorem C8_counterexample :
    (dal_keystore_free_context_ticket 2 (some [5, 5]) stDup).1 = 0 ∧
    dal_keystore_find_context_ticket 2 (some [5, 5])
      (dal_keystore_free_context_ticket 2 (some [5, 5]) stDup).2.1 ≠
        none := by decide

/-- C8 amended: a successful free_context_ticket removes the first
matching context together with all its slots from the registry; a
subsequent find_context_ticket with the same ticket returns NotFound
provided no other live context carries a byte-identical ticket (the
registry allows duplicate tickets, and only the first match is freed). -/
theorem C8_free_then_find {ts : Nat} {t : List Byte} {st st' : KS}
    {rel : List (List Byte)}
    (h : dal_keystore_free_context_ticket ts (some t) st = (0, st', rel)) :
    (∃ c l1 l2, st.contexts = l1 ++ c :: l2 ∧
      memcmpEqN ts t c.client_ticket = true ∧
      (∀ x ∈ l1, memcmpEqN ts t x.client_ticket = false) ∧
      st'.contexts = l1 ++ l2 ∧ rel = deinit_context_struct c) ∧
    (st.contexts.countP (fun c => memcmpEqN ts t c.client_ticket) ≤ 1 →
      dal_keystore_find_context_ticket ts (some t) st' = none) := by
  cases hr : removeFirstCtx (fun c => memcmpEqN ts t c.client_ticket)
      st.contexts with
  | none =>
    rw [free_context_ticket_notfound_eq hr] at h
    simp [EINVAL] at h
  | some y =>
    rcases y with ⟨c, rest⟩
    rw [free_context_ticket_found_eq hr] at h
    simp only [Prod.mk.injEq] at h
    rcases h with ⟨-, hst', hrel⟩
    unfold removeFirstCtx at hr
    rcases removeFirst_eq_some hr with ⟨l1, l2, hdec, hrest, hl1, hpc⟩
    have hcontexts : st'.contexts = l1 ++ l2 := by rw [← hst', hrest]
    refine ⟨⟨c, l1, l2, hdec, hpc, hl1, hcontexts, hrel.symm⟩, ?_⟩
    intro hcount
    rw [hdec, List.countP_append,
      List.countP_cons_of_pos (fun c => memcmpEqN ts t c.client_ticket)
        l2 hpc] at hcount
    have hz1 : l1.countP (fun c => memcmpEqN ts t c.client_ticket) = 0 := by
      omega
    have hz2 : l2.countP (fun c => memcmpEqN ts t c.client_ticket) = 0 := by
      omega
    show st'.contexts.find? (fun c => memcmpEqN ts t c.client_ticket) = none
    rw [hcontexts, List.find?_eq_none]
    intro x hx
    rcases List.mem_append.mp hx with h1 | h2
    · exact List.countP_eq_zero.mp hz1 x h1
    · exact List.countP_eq_zero.mp hz2 x h2

/-- C8 witness: with tickets [5, 5] and [6, 6] live, freeing [5, 5]
removes that context, and since no other context matches, a subsequent
find for [5, 5] returns NULL. -/
theorem C8_witness :
    (∃ c l1 l2, stDistinct.contexts = l1 ++ c :: l2 ∧
      memcmpEqN 2 [5, 5] c.client_ticket = true ∧
      (∀ x ∈ l1, memcmpEqN 2 [5, 5] x.client_ticket = false) ∧
      (KS.mk [⟨0, [6, 6], []⟩] 2).contexts = l1 ++ l2 ∧
      ([] : List (List Byte)) = deinit_context_struct c) ∧
    dal_keystore_find_context_ticket 2 (some [5, 5])
      (KS.mk [⟨0, [6, 6], []⟩] 2) = none :=
  ⟨(@C8_free_then_find 2 [5, 5] stDistinct ⟨[⟨0, [6, 6], []⟩], 2⟩ []
      (by decide)).1,
   (@C8_free_then_find 2 [5, 5] stDistinct ⟨[⟨0, [6, 6], []⟩], 2⟩ []
      (by decide)).2 (by decide)⟩

/-! ### C10: the newest matching context wins -/

theorem first_match_max_cid {l : List Ctx}
    (hpw : (l.map Ctx.cid).Pairwise (fun a b => b < a))
    {p : Ctx → Bool} {l1 l2 : List Ctx} {c : Ctx}
    (hdec : l = l1 ++ c :: l2) (hl1 : ∀ x ∈ l1, p x = false)
    (hc : p c = true) :
    ∀ c' ∈ l, p c' = true → c'.cid ≤ c.cid := by
  intro c' hc' hp
  rw [hdec] at hc'
  rcases List.mem_append.mp hc' with h1 | h2
  · rw [hl1 c' h1] at hp
    simp at hp
  · rcases List.mem_cons.mp h2 with rfl | h2
    · exact le_refl _
    · rw [hdec, List.map_append, List.map_cons] at hpw
      have hcons := (List.pairwise_append.mp hpw).2.1
      have hlt := (List.pairwise_cons.mp hcons).1 c'.cid
        (List.mem_map.mpr ⟨c', h2, rfl⟩)
      exact le_of_lt hlt

/-- C10: allocate_context inserts the new context at the head of the
registry list; consequently, in every reachable state, find_context_ticket
returns a matching context whose identity is newest (maximal allocation
stamp) among all matching live contexts, and a successful
free_context_ticket removes exactly such a newest matching context. -/
theorem C10_newest_match_wins {P : Params} {st : KS} (h : Reachable P st) :
    (∀ c st', dal_keystore_allocate_context P.maxClients P.tsize st =
        (some c, st') → st'.contexts = c :: st.contexts) ∧
    (∀ t c, dal_keystore_find_context_ticket P.tsize (some t) st = some c →
      c ∈ st.contexts ∧ memcmpEqN P.tsize t c.client_ticket = true ∧
      ∀ c' ∈ st.contexts, memcmpEqN P.tsize t c'.client_ticket = true →
        c'.cid ≤ c.cid) ∧
    (∀ t st' rel, dal_keystore_free_context_ticket P.tsize (some t) st =
        (0, st', rel) →
      ∃ c l1 l2, st.contexts = l1 ++ c :: l2 ∧ st'.contexts = l1 ++ l2 ∧
        memcmpEqN P.tsize t c.client_ticket = true ∧
        ∀ c' ∈ st.contexts, memcmpEqN P.tsize t c'.client_ticket = true →
          c'.cid ≤ c.cid) := by
  have hpw := (reachable_good h).2.2.1
  refine ⟨?_, ?_, ?_⟩
  · intro c st' heq
    by_cases hlen : st.contexts.length < P.maxClients
    · rw [allocate_context_lt_eq hlen] at heq
      simp only [Prod.mk.injEq, Option.some.injEq] at heq
      rcases heq with ⟨rfl, rfl⟩
      rfl
    · rw [allocate_context_full_eq hlen] at heq
      simp at heq
  · intro t c hc
    have hc' : st.contexts.find?
        (fun x => memcmpEqN P.tsize t x.client_ticket) = some c := hc
    rw [List.find?_eq_some] at hc'
    rcases hc' with ⟨hpc, as, bs, hdec, hall⟩
    have hl1 : ∀ x ∈ as, memcmpEqN P.tsize t x.client_ticket = false :=
      fun x hx => by simpa using hall x hx
    refine ⟨?_, hpc, first_match_max_cid hpw hdec hl1 hpc⟩
    rw [hdec]
    exact List.mem_append.mpr (Or.inr (List.mem_cons_self c bs))
  · intro t st' rel heq
    cases hr : removeFirstCtx (fun c => memcmpEqN P.tsize t c.client_ticket)
        st.contexts with
    | none =>
      rw [free_context_ticket_notfound_eq hr] at heq
      simp [EINVAL] at heq
    | some y =>
      rcases y with ⟨c, rest⟩
      rw [free_context_ticket_found_eq hr] at heq
      simp only [Prod.mk.injEq] at heq
      rcases heq with ⟨-, hst', -⟩
      unfold removeFirstCtx at hr
      rcases removeFirst_eq_some hr with ⟨l1, l2, hdec, hrest, hl1, hpc⟩
      exact ⟨c, l1, l2, hdec, by rw [← hst', hrest],
        hpc, first_match_max_cid hpw hdec hl1 hpc⟩

/-- C10 witness: with two live contexts whose zero-initialised tickets
coincide, both the ticket search and the ticket free select the context
allocated second (identity 1), not the older identity 0; and allocation
into a one-context registry prepends the new context. -/
theorem C10_witness :
    ((KS.mk [⟨1, [0, 0], []⟩, ⟨0, [0, 0], []⟩] 2).contexts =
      (Ctx.mk 1 [0, 0] []) :: (KS.mk [⟨0, [0, 0], []⟩] 1).contexts) ∧
    ((Ctx.mk 1 [0, 0] []) ∈ stTwo.contexts ∧
      memcmpEqN 2 [0, 0] (Ctx.mk 1 [0, 0] []).client_ticket = true ∧
      ∀ c' ∈ stTwo.contexts, memcmpEqN 2 [0, 0] c'.client_ticket = true →
        c'.cid ≤ (Ctx.mk 1 [0, 0] []).cid) ∧
    (∃ c l1 l2, stTwo.contexts = l1 ++ c :: l2 ∧
      (KS.mk [⟨0, [0, 0], []⟩] 2).contexts = l1 ++ l2 ∧
      memcmpEqN 2 [0, 0] c.client_ticket = true ∧
      ∀ c' ∈ stTwo.contexts, memcmpEqN 2 [0, 0] c'.client_ticket = true →
        c'.cid ≤ c.cid) :=
  ⟨(@C10_newest_match_wins P22 (KS.mk [⟨0, [0, 0], []⟩] 1)
      (Reachable.next Op.allocCtx Reachable.init)).1 ⟨1, [0, 0], []⟩
      ⟨[⟨1, [0, 0], []⟩, ⟨0, [0, 0], []⟩], 2⟩ (by decide),
   (@C10_newest_match_wins P22 stTwo
      (Reachable.next Op.allocCtx (Reachable.next Op.allocCtx
        Reachable.init))).2.1 [0, 0] ⟨1, [0, 0], []⟩ (by decide),
   (@C10_newest_match_wins P22 stTwo
      (Reachable.next Op.allocCtx (Reachable.next Op.allocCtx
        Reachable.init))).2.2 [0, 0] ⟨[⟨0, [0, 0], []⟩], 2⟩ [] (by decide)⟩

end DalKeystore
